import Mathlib

/-!
Shallow embedding of `tutorials/Skills/agilerl_skills_curriculum.py`.

The script defines three reward-shaping wrappers (`StabilizeSkill`, `CenterSkill`,
`LandingSkill`) whose `skill_reward` methods rewrite the `(observation, reward,
terminated, truncated, info)` tuple returned by the base environment, and a
hierarchical training loop in `__main__` in which a selector agent repeatedly
picks one of three frozen skill agents; the chosen skill then drives the base
environment for up to `skill_duration` steps while rewards accumulate.

Observations are numpy float vectors; we model them as total functions `ℕ → ℚ`
(index `i` is `observation[i]`).  Python floats become rationals, Python
truthiness of a float is `≠ 0`, and the `terminated` / `truncated` values become
`Bool` (the script writes the integer `0` for false and `True` for true).
Mutable wrapper state (`self.history`, the constants set in `__init__`) becomes
an explicit state record threaded through `skill_reward`; the side effect
`self.env.reset()` is recorded in an `envReset` flag of the step output.

The selector loop is embedded as explicit state passing over an abstract
environment type `E`: the external library calls (`env.step`, the agents'
`getAction`, `agent.learn`) are oracle functions supplied as parameters, and the
calls the loop makes are recorded in an event trace so that frame properties
(which agent is queried, which agent learns, which action is sent to the
environment) can be stated.
-/

/-- An observation (`numpy` float vector); `obs i` models `observation[i]`. -/
abbrev Obs : Type := ℕ → ℚ

/-- An action passed to `env.step`: a list with one entry per vectorized
sub-environment (here one entry, e.g. the literal `[0]`). -/
abbrev EnvAction : Type := List ℤ

variable {Info E LP V Ent : Type}

/-- The tuple returned by a `skill_reward` method, plus a flag recording
whether the wrapper called `self.env.reset()` during this call. -/
structure SkillStepOut (Info : Type) where
  observation : Obs
  reward : ℚ
  terminated : Bool
  truncated : Bool
  info : Info
  envReset : Bool

/-- Mutable state of `StabilizeSkill`: the `theta_level` constant and the
`self.history` dict of lists set up in `__init__`. -/
structure StabilizeState where
  theta_level : ℚ
  history_x : List ℚ
  history_y : List ℚ
  history_theta : List ℚ
  deriving Repr, DecidableEq

/-- `StabilizeSkill.__init__`: `theta_level = 0`, empty history. -/
def StabilizeState.init : StabilizeState := ⟨0, [], [], []⟩

/-- `StabilizeSkill.skill_reward`.  Reads of `self.history[...][-1]` are
modelled with `List.getLastD 0`; in the source they only occur after the
`len(self.history["x"]) == 0` guard has failed. -/
def StabilizeSkill.skill_reward (s : StabilizeState) (observation : Obs) (reward : ℚ)
    (terminated truncated : Bool) (info : Info) : StabilizeState × SkillStepOut Info :=
  if terminated || truncated then
    ({ s with history_x := [], history_y := [], history_theta := [] },
     ⟨observation, -100, terminated, truncated, info, false⟩)
  else
    let x := observation 0
    let y := observation 1
    let theta := observation 4
    if s.history_x.length = 0 then
      ({ s with
          history_x := s.history_x ++ [x]
          history_y := s.history_y ++ [y]
          history_theta := s.history_theta ++ [theta] },
       ⟨observation, 1, false, false, info, false⟩)
    else
      let reward := 1 - (|s.history_x.getLastD 0 - x| * 10) ^ 2
          - (|s.history_y.getLastD 0 - y| * 10) ^ 2
          - (|s.history_theta.getLastD 0 - theta| * 10) ^ 2
      let s' : StabilizeState := { s with
          history_x := s.history_x ++ [x]
          history_y := s.history_y ++ [y]
          history_theta := s.history_theta ++ [theta] }
      if s'.history_x.length > 300 then
        ({ s' with history_x := [], history_y := [], history_theta := [] },
         ⟨observation, 10, true, false, info, true⟩)
      else
        (s', ⟨observation, reward, false, false, info, false⟩)

/-- Mutable state of `CenterSkill`: the `x_center` constant and the
`self.history` dict of lists set up in `__init__`. -/
structure CenterState where
  x_center : ℚ
  history_y : List ℚ
  history_theta : List ℚ
  deriving Repr, DecidableEq

/-- `CenterSkill.__init__`: `x_center = 0`, empty history. -/
def CenterState.init : CenterState := ⟨0, [], []⟩

/-- `CenterSkill.skill_reward`. -/
def CenterSkill.skill_reward (c : CenterState) (observation : Obs) (reward : ℚ)
    (terminated truncated : Bool) (info : Info) : CenterState × SkillStepOut Info :=
  if terminated || truncated then
    ({ c with history_y := [], history_theta := [] },
     ⟨observation, -1000, terminated, truncated, info, false⟩)
  else
    let x := observation 0
    let y := observation 1
    let theta := observation 4
    if c.history_y.length = 0 then
      ({ c with
          history_y := c.history_y ++ [y]
          history_theta := c.history_theta ++ [theta] },
       ⟨observation, 1, false, false, info, false⟩)
    else
      let reward := 1 - |(c.x_center - x) * 2| ^ 2
          - (|c.history_y.getLastD 0 - y| * 10) ^ 2
          - (|c.history_theta.getLastD 0 - theta| * 10) ^ 2
      let c' : CenterState := { c with
          history_y := c.history_y ++ [y]
          history_theta := c.history_theta ++ [theta] }
      if c'.history_y.length > 300 then
        ({ c' with history_y := [], history_theta := [] },
         ⟨observation, 10, true, false, info, true⟩)
      else
        (c', ⟨observation, reward, false, false, info, false⟩)

/-- State of `LandingSkill`: only the three constants set in `__init__`;
`skill_reward` never mutates them. -/
structure LandingState where
  x_landing : ℚ
  y_landing : ℚ
  theta_level : ℚ
  deriving Repr, DecidableEq

/-- `LandingSkill.__init__`: all three constants are `0`. -/
def LandingState.init : LandingState := ⟨0, 0, 0⟩

/-- `LandingSkill.skill_reward`. -/
def LandingSkill.skill_reward (c : LandingState) (observation : Obs) (reward : ℚ)
    (terminated truncated : Bool) (info : Info) : LandingState × SkillStepOut Info :=
  if terminated || truncated then
    (c, ⟨observation, reward, terminated, truncated, info, false⟩)
  else
    let x := observation 0
    let y := observation 1
    let theta := observation 4
    let reward := 1 - |c.x_landing - x| ^ 2 - |c.y_landing - y| ^ 2
        - |c.theta_level - theta|
    (c, ⟨observation, reward, false, false, info, false⟩)

/-! ### The selector training loop (`__main__`) -/

/-- What one call to `env.step` returns (the discarded `info` omitted);
`termination` / `truncation` model `np.any(termination)` / `np.any(truncation)`
for the single vectorized sub-environment. -/
structure EnvStepOut where
  next_state : Obs
  reward : ℚ
  termination : Bool
  truncation : Bool

/-- Calls into the external library made by the training loop, recorded as a
trace.  `learn` is never called on a skill agent in the source; the
`skillLearn` constructor exists so that its absence is a statement about the
trace rather than about the event alphabet. -/
inductive Event where
  | selectorGetAction : Event
  | skillGetAction : Fin 3 → Event
  | envStep : EnvAction → Event
  | selectorLearn : Event
  | skillLearn : Fin 3 → Event
  deriving DecidableEq

/-- Whether an event is the selector agent's `getAction`. -/
def Event.isSelectorGet : Event → Bool
  | Event.selectorGetAction => true
  | _ => false

/-- Whether an event is `learn` on the selector agent. -/
def Event.isSelectorLearn : Event → Bool
  | Event.selectorLearn => true
  | _ => false

/-- Whether an event is `learn` on a skill agent. -/
def Event.isSkillLearn : Event → Bool
  | Event.skillLearn _ => true
  | _ => false

/-- An entry of the `trained_skills` dict. -/
structure SkillEntry where
  skill : String
  agent : Obs → EnvAction
  skill_duration : ℕ

/-- The `trained_skills` dict keyed by the selector's action; a skill agent is
modelled by its `getAction` method (the components the loop discards are
omitted). -/
def trained_skills (stabilize_agent center_agent landing_agent : Obs → EnvAction) :
    Fin 3 → SkillEntry
  | ⟨0, _⟩ => ⟨"stabilize", stabilize_agent, 40⟩
  | ⟨1, _⟩ => ⟨"center", center_agent, 40⟩
  | ⟨2, _⟩ => ⟨"landing", landing_agent, 40⟩
  | ⟨n + 3, h⟩ => absurd h (by omega)

/-- The local variables live across one execution of the inner
skill-execution loop:  `env` is the abstract environment state, `state` the
Python `state` variable, `reward` the accumulator, and `next_state`,
`termination`, `truncation` the latest values returned by `env.step`.
`envSteps` counts the `env.step` calls made, `stepRewards` records each
`skill_reward` value returned by `env.step` in order, and `trace` records the
library calls. -/
structure InnerState (E : Type) where
  env : E
  state : Obs
  reward : ℚ
  next_state : Obs
  termination : Bool
  truncation : Bool
  envSteps : ℕ
  stepRewards : List ℚ
  trace : List Event

/-- One iteration of the inner skill-execution loop body, up to but not
including the `break` test and the `state = next_state` update: if a leg
contact flag (`state[0][6]` or `state[0][7]`) is truthy the environment is
stepped with the literal action `[0]` and the skill agent is not consulted;
otherwise the skill agent chooses the action. -/
def innerBody (envStep : E → EnvAction → E × EnvStepOut) (i : Fin 3)
    (skillGet : Obs → EnvAction) (s : InnerState E) : InnerState E :=
  if s.state 6 ≠ 0 ∨ s.state 7 ≠ 0 then
    let r := envStep s.env [0]
    { s with
        env := r.1
        reward := s.reward + r.2.reward
        next_state := r.2.next_state
        termination := r.2.termination
        truncation := r.2.truncation
        envSteps := s.envSteps + 1
        stepRewards := s.stepRewards ++ [r.2.reward]
        trace := s.trace ++ [Event.envStep [0]] }
  else
    let a := skillGet s.state
    let r := envStep s.env a
    { s with
        env := r.1
        reward := s.reward + r.2.reward
        next_state := r.2.next_state
        termination := r.2.termination
        truncation := r.2.truncation
        envSteps := s.envSteps + 1
        stepRewards := s.stepRewards ++ [r.2.reward]
        trace := s.trace ++ [Event.skillGetAction i, Event.envStep a] }

/-- The inner skill-execution loop `for skill_step in range(skill_duration)`:
after each body iteration the loop breaks if `np.any(termination) or
np.any(truncation)`, and otherwise sets `state = next_state` and continues. -/
def innerLoop (envStep : E → EnvAction → E × EnvStepOut) (i : Fin 3)
    (skillGet : Obs → EnvAction) : ℕ → InnerState E → InnerState E
  | 0, s => s
  | fuel + 1, s =>
    let s' := innerBody envStep i skillGet s
    if s'.termination || s'.truncation then s'
    else innerLoop envStep i skillGet fuel { s' with state := s'.next_state }

/-- The local variables of one selector-training episode: the rollout lists
built for `agent.learn`, the running `score`, and the loop-carried `state`,
`next_state`, `termination`, `truncation` variables. -/
structure EpisodeState (E LP V : Type) where
  env : E
  state : Obs
  score : ℚ
  states : List Obs
  actions : List (Fin 3)
  log_probs : List LP
  rewards : List ℚ
  terminations : List Bool
  values : List V
  next_state : Obs
  termination : Bool
  truncation : Bool
  trace : List Event

/-- The inner-loop entry state for one selector step: the reward accumulator
starts at `reward = 0` and the loop continues from the episode's current
`env` and `state`. -/
def innerInit (s : EpisodeState E LP V) : InnerState E :=
  { env := s.env, state := s.state, reward := 0, next_state := s.next_state,
    termination := s.termination, truncation := s.truncation,
    envSteps := 0, stepRewards := [], trace := [] }

/-- The inner skill-execution run performed for one selector step: the skill
agent and the `skill_duration` come from the `trained_skills` entry selected
by the action component `action[0]` returned by the selector's `getAction`. -/
def selectorInner (envStep : E → EnvAction → E × EnvStepOut)
    (selGet : Obs → Fin 3 × LP × Ent × V) (agents : Fin 3 → Obs → EnvAction)
    (s : EpisodeState E LP V) : InnerState E :=
  let action := (selGet s.state).1
  let entry := trained_skills (agents 0) (agents 1) (agents 2) action
  innerLoop envStep action entry.agent entry.skill_duration (innerInit s)

/-- One iteration of `for idx_step in range(500)`: ask the selector for an
action, run the chosen skill via the inner loop, add the accumulated reward to
`score`, and append one entry to each rollout list. -/
def selectorStep (envStep : E → EnvAction → E × EnvStepOut)
    (selGet : Obs → Fin 3 × LP × Ent × V) (agents : Fin 3 → Obs → EnvAction)
    (s : EpisodeState E LP V) : EpisodeState E LP V :=
  let g := selGet s.state
  let inner := selectorInner envStep selGet agents s
  { env := inner.env, state := inner.state, score := s.score + inner.reward,
    states := s.states ++ [inner.state], actions := s.actions ++ [g.1],
    log_probs := s.log_probs ++ [g.2.1], rewards := s.rewards ++ [inner.reward],
    terminations := s.terminations ++ [inner.termination],
    values := s.values ++ [g.2.2.2], next_state := inner.next_state,
    termination := inner.termination, truncation := inner.truncation,
    trace := s.trace ++ [Event.selectorGetAction] ++ inner.trace }

/-- `k` iterations of the outer `for idx_step in range(500)` loop. -/
def runSteps (envStep : E → EnvAction → E × EnvStepOut)
    (selGet : Obs → Fin 3 × LP × Ent × V) (agents : Fin 3 → Obs → EnvAction) :
    ℕ → EpisodeState E LP V → EpisodeState E LP V
  | 0, s => s
  | k + 1, s => runSteps envStep selGet agents k (selectorStep envStep selGet agents s)

/-- The episode-local state right after `state = env.reset()[0]` and the list
initialisations. -/
def episodeInit (e : E) (st : Obs) : EpisodeState E LP V :=
  { env := e, state := st, score := 0, states := [], actions := [], log_probs := [],
    rewards := [], terminations := [], values := [], next_state := st,
    termination := false, truncation := false, trace := [] }

/-- One full selector-training episode: 500 selector steps, then the single
`agent.learn` call on the selector agent. -/
def runEpisode (envStep : E → EnvAction → E × EnvStepOut)
    (selGet : Obs → Fin 3 × LP × Ent × V) (agents : Fin 3 → Obs → EnvAction)
    (e : E) (st : Obs) : EpisodeState E LP V :=
  let s := runSteps envStep selGet agents 500 (episodeInit e st)
  { s with trace := s.trace ++ [Event.selectorLearn] }

/-! ### Claims about the skill wrappers -/

/-- C4: `skill_reward` of each of the three skill wrappers returns the
observation and the info it was given unchanged; only the reward, terminated
and truncated components of the step result are rewritten. -/
theorem skill_reward_preserves_observation_and_info
    (sS : StabilizeState) (sC : CenterState) (sL : LandingState)
    (observation : Obs) (r : ℚ) (t tr : Bool) (info : Info) :
    ((StabilizeSkill.skill_reward sS observation r t tr info).2.observation = observation
      ∧ (StabilizeSkill.skill_reward sS observation r t tr info).2.info = info)
    ∧ ((CenterSkill.skill_reward sC observation r t tr info).2.observation = observation
      ∧ (CenterSkill.skill_reward sC observation r t tr info).2.info = info)
    ∧ ((LandingSkill.skill_reward sL observation r t tr info).2.observation = observation
      ∧ (LandingSkill.skill_reward sL observation r t tr info).2.info = info) := by
  unfold StabilizeSkill.skill_reward CenterSkill.skill_reward LandingSkill.skill_reward
  refine ⟨⟨?_, ?_⟩, ⟨?_, ?_⟩, ⟨?_, ?_⟩⟩ <;> dsimp only <;> (repeat' split) <;> rfl

/-- C6: with the constants set in `__init__` (all zero), a non-terminal call to
`LandingSkill.skill_reward` returns reward
`1 - |x_landing - x|^2 - |y_landing - y|^2 - |theta_level - theta|` with
`terminated = truncated = 0`; moreover on every call the wrapper state is
returned unchanged (no history is kept, the result is a function of the call's
arguments alone) and the base environment is never reset. -/
theorem landing_skill_reward_spec (sL : LandingState) (observation : Obs) (r : ℚ)
    (t tr : Bool) (info : Info) :
    (LandingSkill.skill_reward LandingState.init observation r false false info).2 =
      ⟨observation,
        1 - |LandingState.init.x_landing - observation 0| ^ 2
          - |LandingState.init.y_landing - observation 1| ^ 2
          - |LandingState.init.theta_level - observation 4|,
        false, false, info, false⟩
    ∧ (LandingSkill.skill_reward sL observation r t tr info).1 = sL
    ∧ (LandingSkill.skill_reward sL observation r t tr info).2.envReset = false := by
  refine ⟨rfl, ?_, ?_⟩ <;> unfold LandingSkill.skill_reward <;> split <;> rfl

/-- C7: when the base step reports terminated or truncated,
`StabilizeSkill.skill_reward` returns reward −100 and clears its history,
`CenterSkill.skill_reward` returns reward −1000 and clears its history, and
`LandingSkill.skill_reward` returns the base reward unchanged; all three pass
the terminated and truncated flags through unchanged and none resets the base
environment. -/
theorem skill_reward_terminal_case (sS : StabilizeState) (sC : CenterState)
    (sL : LandingState) (observation : Obs) (r : ℚ) (t tr : Bool) (info : Info)
    (h : (t || tr) = true) :
    StabilizeSkill.skill_reward sS observation r t tr info =
      ({ sS with history_x := [], history_y := [], history_theta := [] },
       ⟨observation, -100, t, tr, info, false⟩)
    ∧ CenterSkill.skill_reward sC observation r t tr info =
      ({ sC with history_y := [], history_theta := [] },
       ⟨observation, -1000, t, tr, info, false⟩)
    ∧ LandingSkill.skill_reward sL observation r t tr info =
      (sL, ⟨observation, r, t, tr, info, false⟩) := by
  refine ⟨?_, ?_, ?_⟩
  · simp [StabilizeSkill.skill_reward, h]
  · simp [CenterSkill.skill_reward, h]
  · simp [LandingSkill.skill_reward, h]

/-- C7 witness: the terminal case evaluated at a concrete input. -/
theorem skill_reward_terminal_case_witness :
    StabilizeSkill.skill_reward StabilizeState.init (fun _ => 0) 5 true false () =
      ({ StabilizeState.init with history_x := [], history_y := [], history_theta := [] },
       ⟨fun _ => 0, -100, true, false, (), false⟩)
    ∧ CenterSkill.skill_reward CenterState.init (fun _ => 0) 5 true false () =
      ({ CenterState.init with history_y := [], history_theta := [] },
       ⟨fun _ => 0, -1000, true, false, (), false⟩)
    ∧ LandingSkill.skill_reward LandingState.init (fun _ => 0) 5 true false () =
      (LandingState.init, ⟨fun _ => 0, 5, true, false, (), false⟩) :=
  skill_reward_terminal_case StabilizeState.init CenterState.init LandingState.init
    (fun _ => 0) 5 true false () rfl

/-- The shape of a `StabilizeSkill` history that `skill_reward` maintains:
the three lists stay in step and never grow past 300 entries. -/
def StabilizeState.wf (s : StabilizeState) : Prop :=
  s.history_x.length = s.history_y.length ∧
    s.history_x.length = s.history_theta.length ∧ s.history_x.length ≤ 300

/-- The shape of a `CenterSkill` history that `skill_reward` maintains. -/
def CenterState.wf (c : CenterState) : Prop :=
  c.history_y.length = c.history_theta.length ∧ c.history_y.length ≤ 300

/-- C5: on a non-terminal step with between 1 and 299 prior history entries,
`StabilizeSkill.skill_reward` returns reward
`1 − (|x_prev − x|·10)² − (|y_prev − y|·10)² − (|θ_prev − θ|·10)²` and
`CenterSkill.skill_reward` returns reward
`1 − |(x_center − x)·2|² − (|y_prev − y|·10)² − (|θ_prev − θ|·10)²`, each with
`terminated = truncated = 0` and the `prev` values the most recent history
entries; with empty history both return reward exactly `1` with
`terminated = truncated = 0` and record the current observation. -/
theorem shaping_reward_formula (sS : StabilizeState) (sC : CenterState)
    (observation : Obs) (r : ℚ) (info : Info) :
    (1 ≤ sS.history_x.length → sS.history_x.length ≤ 299 →
      (StabilizeSkill.skill_reward sS observation r false false info).2 =
        ⟨observation,
          1 - (10 * |sS.history_x.getLastD 0 - observation 0|) ^ 2
            - (10 * |sS.history_y.getLastD 0 - observation 1|) ^ 2
            - (10 * |sS.history_theta.getLastD 0 - observation 4|) ^ 2,
          false, false, info, false⟩)
    ∧ (sS.history_x.length = 0 →
      StabilizeSkill.skill_reward sS observation r false false info =
        ({ sS with
            history_x := sS.history_x ++ [observation 0]
            history_y := sS.history_y ++ [observation 1]
            history_theta := sS.history_theta ++ [observation 4] },
         ⟨observation, 1, false, false, info, false⟩))
    ∧ (1 ≤ sC.history_y.length → sC.history_y.length ≤ 299 →
      (CenterSkill.skill_reward sC observation r false false info).2 =
        ⟨observation,
          1 - (2 * |sC.x_center - observation 0|) ^ 2
            - (10 * |sC.history_y.getLastD 0 - observation 1|) ^ 2
            - (10 * |sC.history_theta.getLastD 0 - observation 4|) ^ 2,
          false, false, info, false⟩)
    ∧ (sC.history_y.length = 0 →
      CenterSkill.skill_reward sC observation r false false info =
        ({ sC with
            history_y := sC.history_y ++ [observation 1]
            history_theta := sC.history_theta ++ [observation 4] },
         ⟨observation, 1, false, false, info, false⟩)) := by
  refine ⟨fun h1 h2 => ?_, fun h0 => ?_, fun h1 h2 => ?_, fun h0 => ?_⟩
  · have hne : ¬ sS.history_x.length = 0 := by omega
    have hle : ¬ 300 < sS.history_x.length + 1 := by omega
    simp [StabilizeSkill.skill_reward, List.length_append, hne, hle] <;> ring_nf
  · simp [StabilizeSkill.skill_reward, h0]
  · have hne : ¬ sC.history_y.length = 0 := by omega
    have hle : ¬ 300 < sC.history_y.length + 1 := by omega
    simp [CenterSkill.skill_reward, List.length_append, hne, hle, abs_mul] <;> ring_nf
  · simp [CenterSkill.skill_reward, h0]

/-- C5 witness: the four cases evaluated at concrete inputs (history `[1]`
resp. `[2]`, and the empty initial history, zero observation). -/
theorem shaping_reward_formula_witness :
    (StabilizeSkill.skill_reward ⟨0, [1], [1], [1]⟩ (fun _ => 0) 7 false false ()).2 =
      ⟨fun _ => 0, 1 - (10 * |(1 : ℚ) - 0|) ^ 2 - (10 * |(1 : ℚ) - 0|) ^ 2
        - (10 * |(1 : ℚ) - 0|) ^ 2, false, false, (), false⟩
    ∧ (CenterSkill.skill_reward ⟨0, [2], [2]⟩ (fun _ => 0) 7 false false ()).2 =
      ⟨fun _ => 0, 1 - (2 * |(0 : ℚ) - 0|) ^ 2 - (10 * |(2 : ℚ) - 0|) ^ 2
        - (10 * |(2 : ℚ) - 0|) ^ 2, false, false, (), false⟩
    ∧ StabilizeSkill.skill_reward StabilizeState.init (fun _ => 0) 7 false false () =
      ({ StabilizeState.init with history_x := [0], history_y := [0], history_theta := [0] },
       ⟨fun _ => 0, 1, false, false, (), false⟩)
    ∧ CenterSkill.skill_reward CenterState.init (fun _ => 0) 7 false false () =
      ({ CenterState.init with history_y := [0], history_theta := [0] },
       ⟨fun _ => 0, 1, false, false, (), false⟩) :=
  ⟨(shaping_reward_formula ⟨0, [1], [1], [1]⟩ ⟨0, [2], [2]⟩ (fun _ => 0) 7 ()).1
      (by decide) (by decide),
   (shaping_reward_formula ⟨0, [1], [1], [1]⟩ ⟨0, [2], [2]⟩ (fun _ => 0) 7 ()).2.2.1
      (by decide) (by decide),
   (shaping_reward_formula StabilizeState.init CenterState.init (fun _ => 0) 7 ()).2.1 rfl,
   (shaping_reward_formula StabilizeState.init CenterState.init (fun _ => 0) 7 ()).2.2.2 rfl⟩

/-- C8: `skill_reward` of `StabilizeSkill` and `CenterSkill` keeps every
history list at length at most 300 (the lists also stay in step), and on a
non-terminal step whose append would push the history past 300 entries the
call instead returns reward `10` with `terminated = True`, empties the
history, and resets the base environment. -/
theorem history_length_invariant (sS : StabilizeState) (sC : CenterState)
    (observation : Obs) (r : ℚ) (t tr : Bool) (info : Info) :
    (sS.wf → ((StabilizeSkill.skill_reward sS observation r t tr info).1).wf)
    ∧ (sC.wf → ((CenterSkill.skill_reward sC observation r t tr info).1).wf)
    ∧ (300 ≤ sS.history_x.length →
        StabilizeSkill.skill_reward sS observation r false false info =
          ({ sS with history_x := [], history_y := [], history_theta := [] },
           ⟨observation, 10, true, false, info, true⟩))
    ∧ (300 ≤ sC.history_y.length →
        CenterSkill.skill_reward sC observation r false false info =
          ({ sC with history_y := [], history_theta := [] },
           ⟨observation, 10, true, false, info, true⟩)) := by
  refine ⟨fun h => ?_, fun h => ?_, fun h300 => ?_, fun h300 => ?_⟩
  · obtain ⟨h1, h2, h3⟩ := h
    unfold StabilizeSkill.skill_reward
    dsimp only
    split_ifs with hterm hemp hbig
    · simp [StabilizeState.wf]
    · simp [StabilizeState.wf, List.length_append] <;> omega
    · simp [StabilizeState.wf]
    · simp at hbig
      simp [StabilizeState.wf, List.length_append] <;> omega
  · obtain ⟨h1, h2⟩ := h
    unfold CenterSkill.skill_reward
    dsimp only
    split_ifs with hterm hemp hbig
    · simp [CenterState.wf]
    · simp [CenterState.wf, List.length_append] <;> omega
    · simp [CenterState.wf]
    · simp at hbig
      simp [CenterState.wf, List.length_append] <;> omega
  · unfold StabilizeSkill.skill_reward
    dsimp only
    rw [if_neg (by simp), if_neg (by omega), if_pos (by simp [List.length_append]; omega)]
  · unfold CenterSkill.skill_reward
    dsimp only
    rw [if_neg (by simp), if_neg (by omega), if_pos (by simp [List.length_append]; omega)]

/-- C8 witness: the invariant at the initial states and the 300-entry reset
at histories of exactly 300 entries. -/
theorem history_length_invariant_witness :
    ((StabilizeSkill.skill_reward StabilizeState.init (fun _ => 0) 7 false false ()).1).wf
    ∧ ((CenterSkill.skill_reward CenterState.init (fun _ => 0) 7 false false ()).1).wf
    ∧ StabilizeSkill.skill_reward
        ⟨0, List.replicate 300 0, List.replicate 300 0, List.replicate 300 0⟩
        (fun _ => 0) 7 false false () =
      ({ (⟨0, List.replicate 300 0, List.replicate 300 0, List.replicate 300 0⟩ :
            StabilizeState) with
          history_x := [], history_y := [], history_theta := [] },
       ⟨fun _ => 0, 10, true, false, (), true⟩)
    ∧ CenterSkill.skill_reward ⟨0, List.replicate 300 0, List.replicate 300 0⟩
        (fun _ => 0) 7 false false () =
      ({ (⟨0, List.replicate 300 0, List.replicate 300 0⟩ : CenterState) with
          history_y := [], history_theta := [] },
       ⟨fun _ => 0, 10, true, false, (), true⟩) :=
  ⟨(history_length_invariant StabilizeState.init CenterState.init (fun _ => 0) 7
      false false ()).1 ⟨rfl, rfl, by decide⟩,
   (history_length_invariant StabilizeState.init CenterState.init (fun _ => 0) 7
      false false ()).2.1 ⟨rfl, by decide⟩,
   (history_length_invariant
      ⟨0, List.replicate 300 0, List.replicate 300 0, List.replicate 300 0⟩
      ⟨0, List.replicate 300 0, List.replicate 300 0⟩ (fun _ => 0) 7 false false ()).2.2.1
      (List.length_replicate 300 (0 : ℚ)).symm.le,
   (history_length_invariant
      ⟨0, List.replicate 300 0, List.replicate 300 0, List.replicate 300 0⟩
      ⟨0, List.replicate 300 0, List.replicate 300 0⟩ (fun _ => 0) 7 false false ()).2.2.2
      (List.length_replicate 300 (0 : ℚ)).symm.le⟩

/-! ### Lemmas about the inner skill-execution loop -/

/-- Each inner-loop body iteration makes exactly one `env.step` call. -/
lemma innerBody_envSteps (envStep : E → EnvAction → E × EnvStepOut) (i : Fin 3)
    (skillGet : Obs → EnvAction) (s : InnerState E) :
    (innerBody envStep i skillGet s).envSteps = s.envSteps + 1 := by
  unfold innerBody; split <;> rfl

/-- The body keeps `reward` equal to the sum of the recorded step rewards. -/
lemma innerBody_reward_sum (envStep : E → EnvAction → E × EnvStepOut) (i : Fin 3)
    (skillGet : Obs → EnvAction) (s : InnerState E)
    (h : s.reward = s.stepRewards.sum) :
    (innerBody envStep i skillGet s).reward =
      (innerBody envStep i skillGet s).stepRewards.sum := by
  unfold innerBody; split <;> simp [h, List.sum_append]

/-- If the environment never reports termination or truncation, neither does
the body's step result. -/
lemma innerBody_no_termination (envStep : E → EnvAction → E × EnvStepOut) (i : Fin 3)
    (skillGet : Obs → EnvAction) (s : InnerState E)
    (h : ∀ (e : E) (a : EnvAction),
      (envStep e a).2.termination = false ∧ (envStep e a).2.truncation = false) :
    (innerBody envStep i skillGet s).termination = false ∧
      (innerBody envStep i skillGet s).truncation = false := by
  unfold innerBody; split <;> exact ⟨(h _ _).1, (h _ _).2⟩

/-- The inner loop keeps `reward` equal to the sum of the recorded step
rewards. -/
lemma innerLoop_reward_sum (envStep : E → EnvAction → E × EnvStepOut) (i : Fin 3)
    (skillGet : Obs → EnvAction) :
    ∀ (fuel : ℕ) (s : InnerState E), s.reward = s.stepRewards.sum →
      (innerLoop envStep i skillGet fuel s).reward =
        (innerLoop envStep i skillGet fuel s).stepRewards.sum
  | 0, _, h => h
  | fuel + 1, s, h => by
    rw [innerLoop]
    split
    · exact innerBody_reward_sum envStep i skillGet s h
    · exact innerLoop_reward_sum envStep i skillGet fuel _
        (innerBody_reward_sum envStep i skillGet s h)

/-- The inner loop makes at most `fuel` further `env.step` calls. -/
lemma innerLoop_envSteps_le (envStep : E → EnvAction → E × EnvStepOut) (i : Fin 3)
    (skillGet : Obs → EnvAction) :
    ∀ (fuel : ℕ) (s : InnerState E),
      (innerLoop envStep i skillGet fuel s).envSteps ≤ s.envSteps + fuel
  | 0, _ => Nat.le_refl _
  | fuel + 1, s => by
    rw [innerLoop]
    split
    · rw [innerBody_envSteps]; omega
    · refine le_trans (innerLoop_envSteps_le envStep i skillGet fuel _) ?_
      rw [innerBody_envSteps]
      omega

/-- If the environment never reports termination or truncation, the inner
loop makes exactly `fuel` further `env.step` calls. -/
lemma innerLoop_envSteps_exact (envStep : E → EnvAction → E × EnvStepOut) (i : Fin 3)
    (skillGet : Obs → EnvAction)
    (h : ∀ (e : E) (a : EnvAction),
      (envStep e a).2.termination = false ∧ (envStep e a).2.truncation = false) :
    ∀ (fuel : ℕ) (s : InnerState E),
      (innerLoop envStep i skillGet fuel s).envSteps = s.envSteps + fuel
  | 0, _ => rfl
  | fuel + 1, s => by
    have hb := innerBody_no_termination envStep i skillGet s h
    rw [innerLoop]
    rw [if_neg (by simp [hb.1, hb.2])]
    rw [innerLoop_envSteps_exact envStep i skillGet h fuel _]
    rw [innerBody_envSteps]
    omega

/-- Counting trace events through one body iteration: nothing but `env.step`
and skill `getAction` events are appended. -/
lemma innerBody_trace_countP (envStep : E → EnvAction → E × EnvStepOut) (i : Fin 3)
    (skillGet : Obs → EnvAction) (s : InnerState E) (p : Event → Bool)
    (henv : ∀ a, p (Event.envStep a) = false)
    (hskill : ∀ j, p (Event.skillGetAction j) = false) :
    ((innerBody envStep i skillGet s).trace).countP p = s.trace.countP p := by
  unfold innerBody
  split <;> simp [List.countP_append, List.countP_cons, henv, hskill]

/-- Counting trace events through the inner loop. -/
lemma innerLoop_trace_countP (envStep : E → EnvAction → E × EnvStepOut) (i : Fin 3)
    (skillGet : Obs → EnvAction) (p : Event → Bool)
    (henv : ∀ a, p (Event.envStep a) = false)
    (hskill : ∀ j, p (Event.skillGetAction j) = false) :
    ∀ (fuel : ℕ) (s : InnerState E),
      ((innerLoop envStep i skillGet fuel s).trace).countP p = s.trace.countP p
  | 0, _ => rfl
  | fuel + 1, s => by
    rw [innerLoop]
    split
    · exact innerBody_trace_countP envStep i skillGet s p henv hskill
    · rw [innerLoop_trace_countP envStep i skillGet p henv hskill fuel _]
      exact innerBody_trace_countP envStep i skillGet s p henv hskill

/-- The trace of one selector step's inner run holds only `env.step` and
skill `getAction` events. -/
lemma selectorInner_trace_countP (envStep : E → EnvAction → E × EnvStepOut)
    (selGet : Obs → Fin 3 × LP × Ent × V) (agents : Fin 3 → Obs → EnvAction)
    (s : EpisodeState E LP V) (p : Event → Bool)
    (henv : ∀ a, p (Event.envStep a) = false)
    (hskill : ∀ j, p (Event.skillGetAction j) = false) :
    ((selectorInner envStep selGet agents s).trace).countP p = 0 := by
  unfold selectorInner
  rw [innerLoop_trace_countP envStep _ _ p henv hskill]
  rfl

/-- Counting trace events through one selector step. -/
lemma selectorStep_trace_countP (envStep : E → EnvAction → E × EnvStepOut)
    (selGet : Obs → Fin 3 × LP × Ent × V) (agents : Fin 3 → Obs → EnvAction)
    (s : EpisodeState E LP V) (p : Event → Bool)
    (henv : ∀ a, p (Event.envStep a) = false)
    (hskill : ∀ j, p (Event.skillGetAction j) = false) :
    ((selectorStep envStep selGet agents s).trace).countP p =
      s.trace.countP p + (if p Event.selectorGetAction then 1 else 0) := by
  unfold selectorStep
  rw [List.countP_append, List.countP_append,
    selectorInner_trace_countP envStep selGet agents s p henv hskill]
  simp [List.countP_cons]

/-- Counting trace events through `k` selector steps. -/
lemma runSteps_trace_countP (envStep : E → EnvAction → E × EnvStepOut)
    (selGet : Obs → Fin 3 × LP × Ent × V) (agents : Fin 3 → Obs → EnvAction)
    (p : Event → Bool)
    (henv : ∀ a, p (Event.envStep a) = false)
    (hskill : ∀ j, p (Event.skillGetAction j) = false) :
    ∀ (k : ℕ) (s : EpisodeState E LP V),
      ((runSteps envStep selGet agents k s).trace).countP p =
        s.trace.countP p + k * (if p Event.selectorGetAction then 1 else 0)
  | 0, _ => by simp [runSteps]
  | k + 1, s => by
    rw [runSteps]
    rw [runSteps_trace_countP envStep selGet agents p henv hskill k _]
    rw [selectorStep_trace_countP envStep selGet agents s p henv hskill]
    ring

/-- One selector step appends exactly one entry to each rollout list. -/
lemma selectorStep_list_lengths (envStep : E → EnvAction → E × EnvStepOut)
    (selGet : Obs → Fin 3 × LP × Ent × V) (agents : Fin 3 → Obs → EnvAction)
    (s : EpisodeState E LP V) :
    (selectorStep envStep selGet agents s).states.length = s.states.length + 1
    ∧ (selectorStep envStep selGet agents s).actions.length = s.actions.length + 1
    ∧ (selectorStep envStep selGet agents s).log_probs.length = s.log_probs.length + 1
    ∧ (selectorStep envStep selGet agents s).rewards.length = s.rewards.length + 1
    ∧ (selectorStep envStep selGet agents s).terminations.length = s.terminations.length + 1
    ∧ (selectorStep envStep selGet agents s).values.length = s.values.length + 1 := by
  refine ⟨?_, ?_, ?_, ?_, ?_, ?_⟩ <;> simp [selectorStep, List.length_append]

/-- `k` selector steps append exactly `k` entries to each rollout list. -/
lemma runSteps_list_lengths (envStep : E → EnvAction → E × EnvStepOut)
    (selGet : Obs → Fin 3 × LP × Ent × V) (agents : Fin 3 → Obs → EnvAction) :
    ∀ (k : ℕ) (s : EpisodeState E LP V),
      (runSteps envStep selGet agents k s).states.length = s.states.length + k
      ∧ (runSteps envStep selGet agents k s).actions.length = s.actions.length + k
      ∧ (runSteps envStep selGet agents k s).log_probs.length = s.log_probs.length + k
      ∧ (runSteps envStep selGet agents k s).rewards.length = s.rewards.length + k
      ∧ (runSteps envStep selGet agents k s).terminations.length = s.terminations.length + k
      ∧ (runSteps envStep selGet agents k s).values.length = s.values.length + k
  | 0, _ => ⟨rfl, rfl, rfl, rfl, rfl, rfl⟩
  | k + 1, s => by
    rw [runSteps]
    have ih := runSteps_list_lengths envStep selGet agents k
      (selectorStep envStep selGet agents s)
    have hs := selectorStep_list_lengths envStep selGet agents s
    refine ⟨?_, ?_, ?_, ?_, ?_, ?_⟩ <;> omega

/-! ### Claims about the selector training loop -/

/-- C1: in each selector step, the reward accumulator of the inner skill run
starts at `0`, the scalar appended to `rewards` and added to `score` is the
inner run's accumulated reward, and that accumulated reward equals the sum of
the rewards returned by `env.step` over the inner steps performed. -/
theorem selector_step_reward_is_env_reward_sum (envStep : E → EnvAction → E × EnvStepOut)
    (selGet : Obs → Fin 3 × LP × Ent × V) (agents : Fin 3 → Obs → EnvAction)
    (s : EpisodeState E LP V) :
    (innerInit s).reward = 0
    ∧ (selectorStep envStep selGet agents s).rewards =
        s.rewards ++ [(selectorInner envStep selGet agents s).reward]
    ∧ (selectorStep envStep selGet agents s).score =
        s.score + (selectorInner envStep selGet agents s).reward
    ∧ (selectorInner envStep selGet agents s).reward =
        (selectorInner envStep selGet agents s).stepRewards.sum := by
  refine ⟨rfl, rfl, rfl, ?_⟩
  unfold selectorInner
  exact innerLoop_reward_sum envStep _ _ _ (innerInit s) rfl

/-- C2 (amended): every `trained_skills` entry carries `skill_duration = 40`,
and for each selector action the inner loop steps the base environment **at
most** `skill_duration` times; it steps it exactly `skill_duration` times
when no step reports termination or truncation, and breaks off early as soon
as one does. -/
theorem skill_execution_duration (envStep : E → EnvAction → E × EnvStepOut) (i : Fin 3)
    (skillGet : Obs → EnvAction) (fuel : ℕ) (s : InnerState E)
    (stabilize_agent center_agent landing_agent : Obs → EnvAction) :
    (trained_skills stabilize_agent center_agent landing_agent i).skill_duration = 40
    ∧ (innerLoop envStep i skillGet fuel s).envSteps ≤ s.envSteps + fuel
    ∧ ((∀ (e : E) (a : EnvAction),
          (envStep e a).2.termination = false ∧ (envStep e a).2.truncation = false) →
        (innerLoop envStep i skillGet fuel s).envSteps = s.envSteps + fuel) := by
  refine ⟨?_, innerLoop_envSteps_le envStep i skillGet fuel s,
    fun h => innerLoop_envSteps_exact envStep i skillGet h fuel s⟩
  fin_cases i <;> rfl

/-- C2 witness: with an environment that never terminates, 40 units of fuel
give exactly 40 `env.step` calls. -/
theorem skill_execution_duration_witness :
    (innerLoop (E := Unit) (fun _ _ => ((), ⟨fun _ => 0, 0, false, false⟩)) 0 (fun _ => [0]) 40
      ⟨(), fun _ => 0, 0, fun _ => 0, false, false, 0, [], []⟩).envSteps = 0 + 40 :=
  (skill_execution_duration (fun _ _ => ((), ⟨fun _ => 0, 0, false, false⟩)) 0 (fun _ => [0])
    40 ⟨(), fun _ => 0, 0, fun _ => 0, false, false, 0, [], []⟩
    (fun _ => [0]) (fun _ => [0]) (fun _ => [0])).2.2 (fun _ _ => ⟨rfl, rfl⟩)

set_option maxRecDepth 4000 in
/-- C2 counterexample: with a base environment that reports termination on the
very first step, the inner loop running with the `trained_skills` entry's
`skill_duration` performs one `env.step` call, not 40, before returning to the
selector. -/
theorem skill_execution_duration_counterexample :
    ¬ ((innerLoop (E := Unit) (fun _ _ => ((), ⟨fun _ => 0, 0, true, false⟩)) 0 (fun _ => [0])
        (trained_skills (fun _ => [0]) (fun _ => [0]) (fun _ => [0]) 0).skill_duration
        ⟨(), fun _ => 0, 0, fun _ => 0, false, false, 0, [], []⟩).envSteps = 40) := by
  decide

/-- C9: in the inner skill-execution loop, when a leg-contact flag
(`state[0][6]` or `state[0][7]`) is truthy the environment is stepped with the
fixed action `[0]` and the chosen skill agent's `getAction` is not called
(only an `env.step [0]` event is traced); otherwise the action comes from the
chosen skill agent. -/
theorem contact_flags_bypass_skill (envStep : E → EnvAction → E × EnvStepOut) (i : Fin 3)
    (skillGet : Obs → EnvAction) (s : InnerState E) :
    ((s.state 6 ≠ 0 ∨ s.state 7 ≠ 0) →
      innerBody envStep i skillGet s =
        { s with
            env := (envStep s.env [0]).1
            reward := s.reward + (envStep s.env [0]).2.reward
            next_state := (envStep s.env [0]).2.next_state
            termination := (envStep s.env [0]).2.termination
            truncation := (envStep s.env [0]).2.truncation
            envSteps := s.envSteps + 1
            stepRewards := s.stepRewards ++ [(envStep s.env [0]).2.reward]
            trace := s.trace ++ [Event.envStep [0]] })
    ∧ ((s.state 6 = 0 ∧ s.state 7 = 0) →
      innerBody envStep i skillGet s =
        { s with
            env := (envStep s.env (skillGet s.state)).1
            reward := s.reward + (envStep s.env (skillGet s.state)).2.reward
            next_state := (envStep s.env (skillGet s.state)).2.next_state
            termination := (envStep s.env (skillGet s.state)).2.termination
            truncation := (envStep s.env (skillGet s.state)).2.truncation
            envSteps := s.envSteps + 1
            stepRewards := s.stepRewards ++ [(envStep s.env (skillGet s.state)).2.reward]
            trace := s.trace ++ [Event.skillGetAction i, Event.envStep (skillGet s.state)] }) := by
  constructor
  · intro h
    unfold innerBody
    rw [if_pos h]
  · rintro ⟨h6, h7⟩
    unfold innerBody
    rw [if_neg (by simp [h6, h7])]

/-- C9 witness: one body iteration from a state with a leg-contact flag set,
and one from a state with both flags clear. -/
theorem contact_flags_bypass_skill_witness :
    (innerBody (E := Unit) (fun _ _ => ((), ⟨fun _ => 0, 3, false, false⟩)) 1 (fun _ => [2])
        ⟨(), fun n => if n = 6 then 1 else 0, 0, fun n => if n = 6 then 1 else 0,
          false, false, 0, [], []⟩ =
      ⟨(), fun n => if n = 6 then 1 else 0, 0 + 3, fun _ => 0, false, false, 0 + 1,
        [] ++ [3], [] ++ [Event.envStep [0]]⟩)
    ∧ (innerBody (E := Unit) (fun _ _ => ((), ⟨fun _ => 0, 3, false, false⟩)) 1 (fun _ => [2])
        ⟨(), fun _ => 0, 0, fun _ => 0, false, false, 0, [], []⟩ =
      ⟨(), fun _ => 0, 0 + 3, fun _ => 0, false, false, 0 + 1,
        [] ++ [3], [] ++ [Event.skillGetAction 1, Event.envStep [2]]⟩) :=
  ⟨(contact_flags_bypass_skill _ _ _ _).1 (Or.inl (by norm_num)),
   (contact_flags_bypass_skill _ _ _ _).2 ⟨rfl, rfl⟩⟩

/-- Unfolding `runEpisode` one definitional step, without touching
`runSteps`. -/
lemma runEpisode_def (envStep : E → EnvAction → E × EnvStepOut)
    (selGet : Obs → Fin 3 × LP × Ent × V) (agents : Fin 3 → Obs → EnvAction)
    (e : E) (st : Obs) :
    runEpisode envStep selGet agents e st =
      { runSteps envStep selGet agents 500 (episodeInit e st) with
        trace := (runSteps envStep selGet agents 500 (episodeInit e st)).trace
          ++ [Event.selectorLearn] } := rfl

/-- C3: over a whole selector-training episode the skill agents are frozen:
the trace contains no `learn` call on any skill agent, and exactly one
`learn` call, on the selector agent, after the 500 selector steps. -/
theorem skill_agents_frozen (envStep : E → EnvAction → E × EnvStepOut)
    (selGet : Obs → Fin 3 × LP × Ent × V) (agents : Fin 3 → Obs → EnvAction)
    (e : E) (st : Obs) :
    ((runEpisode envStep selGet agents e st).trace).countP Event.isSkillLearn = 0
    ∧ ((runEpisode envStep selGet agents e st).trace).countP Event.isSelectorLearn = 1 := by
  unfold runEpisode
  constructor
  · rw [List.countP_append,
      runSteps_trace_countP envStep selGet agents Event.isSkillLearn
        (fun _ => rfl) (fun _ => rfl) 500 (episodeInit e st)]
    rfl
  · rw [List.countP_append,
      runSteps_trace_countP envStep selGet agents Event.isSelectorLearn
        (fun _ => rfl) (fun _ => rfl) 500 (episodeInit e st)]
    rfl

/-- C10: every selector-training episode performs exactly 500 selector steps
(only the inner skill loop can break early, never the outer loop), so each
rollout list handed to the selector's `learn` has exactly 500 entries. -/
theorem episode_rollout_lists_have_500_entries (envStep : E → EnvAction → E × EnvStepOut)
    (selGet : Obs → Fin 3 × LP × Ent × V) (agents : Fin 3 → Obs → EnvAction)
    (e : E) (st : Obs) :
    (runEpisode envStep selGet agents e st).states.length = 500
    ∧ (runEpisode envStep selGet agents e st).actions.length = 500
    ∧ (runEpisode envStep selGet agents e st).log_probs.length = 500
    ∧ (runEpisode envStep selGet agents e st).rewards.length = 500
    ∧ (runEpisode envStep selGet agents e st).terminations.length = 500
    ∧ (runEpisode envStep selGet agents e st).values.length = 500
    ∧ ((runEpisode envStep selGet agents e st).trace).countP Event.isSelectorGet = 500 := by
  have h := runSteps_list_lengths envStep selGet agents 500 (episodeInit e st)
  rw [runEpisode_def]
  dsimp only
  refine ⟨h.1, h.2.1, h.2.2.1, h.2.2.2.1, h.2.2.2.2.1, h.2.2.2.2.2, ?_⟩
  rw [List.countP_append,
    runSteps_trace_countP envStep selGet agents Event.isSelectorGet
      (fun _ => rfl) (fun _ => rfl) 500 (episodeInit e st)]
  rfl
